import Mathlib

/-!
Verification development for the multicamera_acquisition microcontroller
firmware.  The definitions below are shallow embeddings of the firmware
sources:

* `src/unnamed/part_001` — the Azure/Basler trigger firmware: timing
  constants, `getNumFrameTimeElements`, `getBaslerFrameTimes`,
  `azure_pulse_logic`, `basler_pulse_logic`, `check_requested_framerate`,
  `runAcquisition` and the serial `loop`.
* `src/unnamed/part_000` — the general acquisition firmware: `parseLine`,
  `reportPinState`, the initialization phase and main while-loop of
  `acquisitionLoop`, and the command-reading `loop`.
* `src/unnamed/part_002` — the interrupt-driven input logger:
  `inputStateISR` and the per-cycle log flush.
* `src/arduino_firmware/caleb_refactor/caleb_refactor.ino` — the refactored
  command-reading `loop`.

Machine integers are modelled as `Nat` (all quantities involved are
non-negative and far below 2^31; every subtraction in the sources is guarded
by a `>=` test on the same quantities, so truncated `Nat` subtraction agrees
with the C unsigned semantics), except that the requested inverse framerate
and the Basler frame-time tables are modelled as `Int`, mirroring the C
`int` type of `check_requested_framerate`, `getNumFrameTimeElements` and
`getBaslerFrameTimes`.
-/

namespace Multicam

/-! ## Timing constants (src/unnamed/part_001, lines 56-69) -/

def NUM_AZURES : Nat := 2
def AZURE_INV_RATE_USEC : Nat := 33333
def AZURE_TRIG_WIDTH_USEC : Nat := 10
def AZURE_PULSE_PERIOD_USEC : Nat := 160
def AZURE_INTERSUBFRAME_PERIOD_USEC : Nat := 1575
def BASLER_TRIG_WIDTH_USEC : Nat := 100
def BASLER_IR_PULSE_WIDTH_USEC : Nat := 1000
def OFFSET_BETWEEN_BASLER_AZURE : Nat := 100
def VALID_INV_FRAMERATES : List Int := [6667, 8333, 11111, 16667, 33333]

/-! ## Pin constants (src/unnamed/part_001, lines 15-53) -/

def azure_trigger_pin : Nat := 0
def basler_trigger_pins_TOP : List Nat := [1, 3, 5, 7]
def basler_trigger_pins_BOTTOM : List Nat := [9, 11]
def LED_IR_TOP : List Nat := [38, 39, 40, 41, 14, 15]
def LED_IR_BOTTOM : List Nat := [16, 17, 20, 21, 22]

/-- Embedding of `getNumFrameTimeElements` (src/unnamed/part_001,
lines 210-244): the length of the Basler frame-times table for a given
inverse framerate, 0 for unsupported values. -/
def getNumFrameTimeElements (invFramerate : Int) : Nat :=
  if invFramerate = 6667 then 5
  else if invFramerate = 8333 then 4
  else if invFramerate = 11111 then 3
  else if invFramerate = 16667 then 2
  else if invFramerate = 33333 then 1
  else 0

/-- Embedding of `getBaslerFrameTimes` (src/unnamed/part_001,
lines 246-351).  The returned `new int[...]` array is modelled as a
`List Int`; the `nullptr` returned for an unsupported framerate is modelled
as the empty list.  `strcmp(cams, "top") == 0` is modelled as
`cams = "top"`. -/
def getBaslerFrameTimes (invFramerate : Int) (numAzures : Nat) (cams : String) : List Int :=
  let f0 : Int := (numAzures : Int) * (AZURE_PULSE_PERIOD_USEC : Int) +
    (OFFSET_BETWEEN_BASLER_AZURE : Int)
  let comp : Int := 2 * (AZURE_INTERSUBFRAME_PERIOD_USEC : Int)
  if invFramerate = 6667 then
    let f1 := f0 + invFramerate
    let f2 := f1 + invFramerate
    let f3 := f2 + invFramerate
    let f4 := f3 + invFramerate
    if cams = "top" then [f0, f1, f2, f3, f4]
    else [f0 + comp, f1 + comp, f2 + comp, f3 + comp, f4 + comp]
  else if invFramerate = 8333 then
    let f1 := f0 + (AZURE_INTERSUBFRAME_PERIOD_USEC : Int) * 5
    let f2 := f1 + invFramerate
    let f3 := f2 + invFramerate
    if cams = "top" then [f0, f1, f2, f3]
    else [f0 + comp, f1 + comp, f2 + comp, f3 + comp]
  else if invFramerate = 11111 then
    let f1 := f0 + invFramerate
    let f2 := f1 + invFramerate
    if cams = "top" then [f0, f1, f2]
    else [f0 + comp, f1 + comp, f2 + comp]
  else if invFramerate = 16667 then
    let f1 := f0 + invFramerate
    if cams = "top" then [f0, f1]
    else [f0 + comp, f1 + comp]
  else if invFramerate = 33333 then
    if cams = "top" then [f0]
    else [f0 + comp]
  else []

/-- Embedding of `check_requested_framerate` (src/unnamed/part_001,
lines 464-476): the loop with early `break` over `VALID_INV_FRAMERATES`
returns whether the requested inverse framerate occurs in the list. -/
def check_requested_framerate (invFramerate : Int) : Bool :=
  VALID_INV_FRAMERATES.any (fun v => invFramerate == v)

theorem check_requested_framerate_eq (invFramerate : Int) :
    check_requested_framerate invFramerate = decide (invFramerate ∈ VALID_INV_FRAMERATES) := by
  rw [Bool.eq_iff_iff]
  simp only [check_requested_framerate, List.any_eq_true, beq_iff_eq, decide_eq_true_eq]
  constructor
  · rintro ⟨v, hv, rfl⟩
    exact hv
  · intro hv
    exact ⟨invFramerate, hv, rfl⟩

/-- Boolean check that a list of integers is strictly increasing, used to
express the ordering property of the offset tables in a kernel-computable
way. -/
def strictlyIncreasingInt : List Int → Bool
  | [] => true
  | [_] => true
  | a :: b :: rest => a < b && strictlyIncreasingInt (b :: rest)

theorem strictlyIncreasingInt_iff : ∀ l : List Int,
    strictlyIncreasingInt l = true ↔ List.Chain' (fun a b => a < b) l
  | [] => by simp [strictlyIncreasingInt]
  | [a] => by simp [strictlyIncreasingInt]
  | a :: b :: rest => by
    rw [List.chain'_cons, strictlyIncreasingInt, Bool.and_eq_true, decide_eq_true_eq,
      strictlyIncreasingInt_iff (b :: rest)]

/-- C1: for every inverse framerate in the supported set and each camera
group ("top" and "bottom"), the pulse train generator returns an offset
table that is strictly increasing, whose last entry plus
`BASLER_TRIG_WIDTH_USEC` is strictly below the cycle period
`AZURE_INV_RATE_USEC = 33333`, and whose length agrees with
`getNumFrameTimeElements` (in particular it is non-empty). -/
theorem c1_pulse_table_valid (invFramerate : Int)
    (h : invFramerate ∈ VALID_INV_FRAMERATES)
    (cams : String) (hc : cams = "top" ∨ cams = "bottom") :
    List.Chain' (fun a b => a < b) (getBaslerFrameTimes invFramerate NUM_AZURES cams) ∧
    (getBaslerFrameTimes invFramerate NUM_AZURES cams).getLast?.getD 0 +
      (BASLER_TRIG_WIDTH_USEC : Int) < (AZURE_INV_RATE_USEC : Int) ∧
    (getBaslerFrameTimes invFramerate NUM_AZURES cams).length =
      getNumFrameTimeElements invFramerate ∧
    0 < (getBaslerFrameTimes invFramerate NUM_AZURES cams).length := by
  simp only [VALID_INV_FRAMERATES, List.mem_cons, List.mem_singleton, List.not_mem_nil,
    or_false] at h
  rcases hc with hc | hc <;> subst hc <;>
    rcases h with h | h | h | h | h <;> subst h <;>
      exact ⟨(strictlyIncreasingInt_iff _).mp (by decide), by decide, by decide, by decide⟩

/-- Witness for C1 at the concrete inverse framerate 16667 with the "top"
camera group. -/
theorem c1_pulse_table_valid_witness :
    List.Chain' (fun a b => a < b) (getBaslerFrameTimes 16667 NUM_AZURES "top") ∧
    (getBaslerFrameTimes 16667 NUM_AZURES "top").getLast?.getD 0 +
      (BASLER_TRIG_WIDTH_USEC : Int) < (AZURE_INV_RATE_USEC : Int) ∧
    (getBaslerFrameTimes 16667 NUM_AZURES "top").length = getNumFrameTimeElements 16667 ∧
    0 < (getBaslerFrameTimes 16667 NUM_AZURES "top").length :=
  c1_pulse_table_valid 16667 (by decide) "top" (Or.inl rfl)

/-- C7: for every supported inverse framerate, the "bottom" group's offset
table is the "top" group's table shifted entrywise by the fixed
compensation `2 * AZURE_INTERSUBFRAME_PERIOD_USEC = 3150` microseconds. -/
theorem c7_bottom_is_top_plus_compensation (invFramerate : Int)
    (h : invFramerate ∈ VALID_INV_FRAMERATES) :
    getBaslerFrameTimes invFramerate NUM_AZURES "bottom" =
      (getBaslerFrameTimes invFramerate NUM_AZURES "top").map
        (fun t => t + 2 * (AZURE_INTERSUBFRAME_PERIOD_USEC : Int)) := by
  simp only [VALID_INV_FRAMERATES, List.mem_cons, List.mem_singleton, List.not_mem_nil,
    or_false] at h
  rcases h with h | h | h | h | h <;> subst h <;> decide

/-- Witness for C7 at the concrete inverse framerate 8333. -/
theorem c7_bottom_is_top_plus_compensation_witness :
    getBaslerFrameTimes 8333 NUM_AZURES "bottom" =
      (getBaslerFrameTimes 8333 NUM_AZURES "top").map
        (fun t => t + 2 * (AZURE_INTERSUBFRAME_PERIOD_USEC : Int)) :=
  c7_bottom_is_top_plus_compensation 8333 (by decide)

/-! ## The acquisition loop of src/unnamed/part_000 (lines 194-305)

The control state of `acquisitionLoop` consists of the elapsed-microseconds
counter `elapsed_cycle_time`, the cycle index, the deterministic
state-change step index, the `finished_wrap_up` flag and the serial input
stream.  One iteration of the `while (cycle_index < num_cycles)` body is
modelled by `acqStep`, where `dt` is the number of microseconds the
free-running `elapsedMicros` clock advanced since the previous iteration.

The per-iteration input-pin scan (lines 244-252) and the `digitalWrite` and
`reportPinState` calls of the random-bit update (lines 294-299) touch no
control state and are not part of this state machine; the initialization
reports of the loop are modelled separately by `part000_initPhase` below.
Two ghost fields instrument the model: `boundaries` counts cycle-boundary
transitions, and `usedModZero` records whether the guard
`cycle_index % cycles_per_random_update == 0` (line 292) was ever evaluated
with a zero divisor, which is undefined behaviour in the C source. -/

/-- Session parameters of `acquisitionLoop` that feed its control flow:
`num_cycles`, `cycle_duration`, the parsed deterministic state-change times
(whose length is `num_state_changes`) and `cycles_per_random_update`. -/
structure AcqConfig where
  numCycles : Nat
  cycleDuration : Nat
  stateChangeTimes : List Nat
  cyclesPerRandomUpdate : Nat
deriving DecidableEq

/-- Control state of `acquisitionLoop`, plus the serial input stream, the
emitted reply tokens, and the two ghost fields described above. -/
structure AcqState where
  elapsed : Nat
  cycleIndex : Nat
  stepIndex : Nat
  finishedWrapUp : Bool
  serialIn : List Char
  outTokens : List String
  boundaries : Nat
  usedModZero : Bool
deriving DecidableEq

/-- One iteration of the `while` body of `acquisitionLoop`
(src/unnamed/part_000, lines 241-302).  Returns the new state and whether
the iteration executed the `INTERRUPTED` early return (line 276). -/
def acqStep (cfg : AcqConfig) (dt : Nat) (s : AcqState) : AcqState × Bool :=
  let e := s.elapsed + dt
  if s.stepIndex < cfg.stateChangeTimes.length then
    if cfg.stateChangeTimes.getD s.stepIndex 0 ≤ e then
      ({ s with elapsed := e, stepIndex := s.stepIndex + 1 }, false)
    else
      ({ s with elapsed := e }, false)
  else if s.finishedWrapUp = false then
    match s.serialIn with
    | [] => ({ s with elapsed := e, finishedWrapUp := true }, false)
    | c :: rest =>
      if c = 'I' then
        ({ s with
            elapsed := e, serialIn := rest,
            outTokens := s.outTokens ++ ["INTERRUPTED"] }, true)
      else
        ({ s with elapsed := e, serialIn := rest, finishedWrapUp := true }, false)
  else if cfg.cycleDuration ≤ e then
    ({ s with
        elapsed := e - cfg.cycleDuration, stepIndex := 0,
        cycleIndex := s.cycleIndex + 1, finishedWrapUp := false,
        boundaries := s.boundaries + 1,
        usedModZero := s.usedModZero || decide (cfg.cyclesPerRandomUpdate = 0) }, false)
  else
    ({ s with elapsed := e }, false)

/-- How a run of `acquisitionLoop` returned to the caller. -/
inductive AcqOutcome where
  | finished
  | interrupted
deriving DecidableEq

/-- Fueled execution of the `while (cycle_index < num_cycles)` loop of
`acquisitionLoop`: one element of `dts` is consumed per iteration; `none`
means the fuel ran out before the loop returned.  On natural completion the
firmware writes the token "F" (line 304) and on interrupt it has already
written "INTERRUPTED".  Also returns the unconsumed clock increments. -/
def acqRunAux (cfg : AcqConfig) : List Nat → AcqState → Option (AcqOutcome × AcqState × List Nat)
  | dts, s =>
    if cfg.numCycles ≤ s.cycleIndex then
      some (AcqOutcome.finished, { s with outTokens := s.outTokens ++ ["F"] }, dts)
    else
      match dts with
      | [] => none
      | dt :: rest =>
        match acqStep cfg dt s with
        | (s', true) => some (AcqOutcome.interrupted, s', rest)
        | (s', false) => acqRunAux cfg rest s'

/-- State at entry of the acquisition `while` loop: lines 222-238 set
`cycle_index = 0`, `step_index = 0`, `finished_wrap_up = false` and
`elapsed_cycle_time = 0`. -/
def acqInit (serial : List Char) : AcqState :=
  { elapsed := 0, cycleIndex := 0, stepIndex := 0, finishedWrapUp := false,
    serialIn := serial, outTokens := [], boundaries := 0, usedModZero := false }

theorem acqRunAux_eq (cfg : AcqConfig) (dts : List Nat) (s : AcqState) :
    acqRunAux cfg dts s =
      if cfg.numCycles ≤ s.cycleIndex then
        some (AcqOutcome.finished, { s with outTokens := s.outTokens ++ ["F"] }, dts)
      else
        match dts with
        | [] => none
        | dt :: rest =>
          match acqStep cfg dt s with
          | (s', true) => some (AcqOutcome.interrupted, s', rest)
          | (s', false) => acqRunAux cfg rest s' := by
  cases dts <;> rfl

theorem acqStep_cycleIndex_succ_iff (cfg : AcqConfig) (dt : Nat) (s : AcqState) :
    (acqStep cfg dt s).1.cycleIndex = s.cycleIndex + 1 ↔
      (¬ s.stepIndex < cfg.stateChangeTimes.length ∧ s.finishedWrapUp = true ∧
        cfg.cycleDuration ≤ s.elapsed + dt) := by
  unfold acqStep
  dsimp only
  repeat' split
  all_goals simp_all

theorem acqStep_boundary_elapsed (cfg : AcqConfig) (dt : Nat) (s : AcqState)
    (h : (acqStep cfg dt s).1.cycleIndex = s.cycleIndex + 1) :
    (acqStep cfg dt s).1.elapsed = s.elapsed + dt - cfg.cycleDuration ∧
    (acqStep cfg dt s).1.stepIndex = 0 ∧
    (acqStep cfg dt s).1.finishedWrapUp = false := by
  revert h
  unfold acqStep
  dsimp only
  repeat' split
  all_goals simp_all

theorem acqStep_cycleIndex_cases (cfg : AcqConfig) (dt : Nat) (s : AcqState) :
    (acqStep cfg dt s).1.cycleIndex = s.cycleIndex ∨
    (acqStep cfg dt s).1.cycleIndex = s.cycleIndex + 1 := by
  unfold acqStep
  dsimp only
  repeat' split
  all_goals simp_all

theorem acqStep_time_invariant (cfg : AcqConfig) (dt : Nat) (s : AcqState) :
    (acqStep cfg dt s).1.elapsed + (acqStep cfg dt s).1.cycleIndex * cfg.cycleDuration =
      s.elapsed + dt + s.cycleIndex * cfg.cycleDuration := by
  unfold acqStep
  dsimp only
  repeat' split
  all_goals try simp_all [Nat.succ_mul]
  all_goals omega

theorem acqStep_boundaries_shift (cfg : AcqConfig) (dt : Nat) (s : AcqState) :
    (acqStep cfg dt s).1.boundaries + s.cycleIndex =
      (acqStep cfg dt s).1.cycleIndex + s.boundaries := by
  unfold acqStep
  dsimp only
  repeat' split
  all_goals try simp_all
  all_goals omega

theorem acqStep_cycleIndex_le (cfg : AcqConfig) (dt : Nat) (s : AcqState) :
    (acqStep cfg dt s).1.cycleIndex ≤ s.cycleIndex + 1 := by
  rcases acqStep_cycleIndex_cases cfg dt s with h | h <;> omega

theorem acqStep_serialIn (cfg : AcqConfig) (dt : Nat) (s : AcqState) :
    (acqStep cfg dt s).1.serialIn = s.serialIn ∨
    ∃ c, s.serialIn = c :: (acqStep cfg dt s).1.serialIn := by
  unfold acqStep
  dsimp only
  repeat' split
  all_goals simp_all

theorem acqStep_interrupt_effects (cfg : AcqConfig) (dt : Nat) (s : AcqState)
    (h : (acqStep cfg dt s).2 = true) :
    'I' ∈ s.serialIn ∧
    (acqStep cfg dt s).1.outTokens = s.outTokens ++ ["INTERRUPTED"] := by
  revert h
  unfold acqStep
  dsimp only
  repeat' split
  all_goals simp_all

theorem acqStep_no_interrupt_out (cfg : AcqConfig) (dt : Nat) (s : AcqState)
    (h : (acqStep cfg dt s).2 = false) :
    (acqStep cfg dt s).1.outTokens = s.outTokens := by
  revert h
  unfold acqStep
  dsimp only
  repeat' split
  all_goals simp_all

theorem acqRunAux_sum (cfg : AcqConfig) : ∀ (dts : List Nat) (s : AcqState)
    (oc : AcqOutcome) (sF : AcqState) (rest : List Nat),
    acqRunAux cfg dts s = some (oc, sF, rest) →
    sF.elapsed + sF.cycleIndex * cfg.cycleDuration + rest.sum =
      s.elapsed + s.cycleIndex * cfg.cycleDuration + dts.sum := by
  intro dts
  induction dts with
  | nil =>
    intro s oc sF rest h
    rw [acqRunAux_eq] at h
    by_cases hc : cfg.numCycles ≤ s.cycleIndex <;> simp [hc] at h
    obtain ⟨-, h2, h3⟩ := h
    subst h2; subst h3
    simp
  | cons dt dts' ih =>
    intro s oc sF rest h
    rw [acqRunAux_eq] at h
    by_cases hc : cfg.numCycles ≤ s.cycleIndex
    · simp [hc] at h
      obtain ⟨-, h2, h3⟩ := h
      subst h2; subst h3
      simp
    · simp [hc] at h
      have hinv := acqStep_time_invariant cfg dt s
      rcases hstep : acqStep cfg dt s with ⟨s', b⟩
      rw [hstep] at h hinv
      cases b with
      | true =>
        simp at h
        obtain ⟨-, h2, h3⟩ := h
        subst h2; subst h3
        simp only [List.sum_cons] at *
        omega
      | false =>
        simp at h
        have := ih s' oc sF rest h
        simp only [List.sum_cons] at *
        omega

theorem acqRunAux_boundaries (cfg : AcqConfig) : ∀ (dts : List Nat) (s : AcqState)
    (oc : AcqOutcome) (sF : AcqState) (rest : List Nat),
    acqRunAux cfg dts s = some (oc, sF, rest) →
    sF.boundaries + s.cycleIndex = sF.cycleIndex + s.boundaries := by
  intro dts
  induction dts with
  | nil =>
    intro s oc sF rest h
    rw [acqRunAux_eq] at h
    by_cases hc : cfg.numCycles ≤ s.cycleIndex <;> simp [hc] at h
    obtain ⟨-, h2, -⟩ := h
    subst h2
    dsimp only
    omega
  | cons dt dts' ih =>
    intro s oc sF rest h
    rw [acqRunAux_eq] at h
    by_cases hc : cfg.numCycles ≤ s.cycleIndex
    · simp [hc] at h
      obtain ⟨-, h2, -⟩ := h
      subst h2
      dsimp only
      omega
    · simp [hc] at h
      have hsh := acqStep_boundaries_shift cfg dt s
      rcases hstep : acqStep cfg dt s with ⟨s', b⟩
      rw [hstep] at h hsh
      dsimp only at hsh
      cases b with
      | true =>
        simp at h
        obtain ⟨-, h2, -⟩ := h
        subst h2
        omega
      | false =>
        simp at h
        have := ih s' oc sF rest h
        omega

theorem acqRunAux_finished_cycleIndex (cfg : AcqConfig) : ∀ (dts : List Nat) (s : AcqState)
    (sF : AcqState) (rest : List Nat),
    acqRunAux cfg dts s = some (AcqOutcome.finished, sF, rest) →
    s.cycleIndex ≤ cfg.numCycles → sF.cycleIndex = cfg.numCycles := by
  intro dts
  induction dts with
  | nil =>
    intro s sF rest h hle
    rw [acqRunAux_eq] at h
    by_cases hc : cfg.numCycles ≤ s.cycleIndex <;> simp [hc] at h
    obtain ⟨h2, -⟩ := h
    subst h2
    simp only []
    omega
  | cons dt dts' ih =>
    intro s sF rest h hle
    rw [acqRunAux_eq] at h
    by_cases hc : cfg.numCycles ≤ s.cycleIndex
    · simp [hc] at h
      obtain ⟨h2, -⟩ := h
      subst h2
      simp only []
      omega
    · simp [hc] at h
      have hlt := acqStep_cycleIndex_le cfg dt s
      rcases hstep : acqStep cfg dt s with ⟨s', b⟩
      rw [hstep] at h hlt
      dsimp only at hlt
      cases b with
      | true => simp at h
      | false =>
        simp at h
        exact ih s' sF rest h (by omega)

theorem acqRunAux_tokens (cfg : AcqConfig) : ∀ (dts : List Nat) (s : AcqState)
    (oc : AcqOutcome) (sF : AcqState) (rest : List Nat),
    acqRunAux cfg dts s = some (oc, sF, rest) →
    (oc = AcqOutcome.interrupted ∧ sF.outTokens = s.outTokens ++ ["INTERRUPTED"] ∧
      'I' ∈ s.serialIn) ∨
    (oc = AcqOutcome.finished ∧ sF.outTokens = s.outTokens ++ ["F"] ∧
      cfg.numCycles ≤ sF.cycleIndex) := by
  intro dts
  induction dts with
  | nil =>
    intro s oc sF rest h
    rw [acqRunAux_eq] at h
    by_cases hc : cfg.numCycles ≤ s.cycleIndex <;> simp [hc] at h
    obtain ⟨h1, h2, -⟩ := h
    subst h2
    exact Or.inr ⟨h1.symm, rfl, hc⟩
  | cons dt dts' ih =>
    intro s oc sF rest h
    rw [acqRunAux_eq] at h
    by_cases hc : cfg.numCycles ≤ s.cycleIndex
    · simp [hc] at h
      obtain ⟨h1, h2, -⟩ := h
      subst h2
      exact Or.inr ⟨h1.symm, rfl, hc⟩
    · simp [hc] at h
      rcases hstep : acqStep cfg dt s with ⟨s', b⟩
      rw [hstep] at h
      cases b with
      | true =>
        simp at h
        obtain ⟨h1, h2, -⟩ := h
        subst h2
        have heff := acqStep_interrupt_effects cfg dt s (by rw [hstep])
        rw [hstep] at heff
        exact Or.inl ⟨h1.symm, heff.2, heff.1⟩
      | false =>
        simp at h
        have hout := acqStep_no_interrupt_out cfg dt s (by rw [hstep])
        have hser := acqStep_serialIn cfg dt s
        rw [hstep] at hout hser
        rcases ih s' oc sF rest h with ⟨h1, h2, h3⟩ | ⟨h1, h2, h3⟩
        · refine Or.inl ⟨h1, by rw [h2, hout], ?_⟩
          rcases hser with hser | ⟨c, hser⟩
          · rw [← hser]; exact h3
          · rw [hser]; exact List.mem_cons_of_mem c h3
        · exact Or.inr ⟨h1, by rw [h2, hout], h3⟩

/-- C2: in the acquisition loop of `acquisitionLoop` (src/unnamed/part_000),
an iteration performs a cycle-boundary transition exactly when the
deterministic state changes are exhausted, the wrap-up has run, and at
least `cycle_duration` microseconds have elapsed since the previous
boundary; at a boundary the cycle index increments by exactly one and the
elapsed counter is decremented by `cycle_duration` (carried forward, not
reset to zero).  Consequently, along any completed portion of a run the
elapsed counter plus `cycleIndex * cycle_duration` equals the total clock
time consumed (no accumulating drift), the number of boundary transitions
equals the final cycle index, and a run that finishes naturally has
performed exactly `num_cycles` boundary transitions. -/
theorem c2_cycle_boundary_carried_subtraction :
    (∀ (cfg : AcqConfig) (dt : Nat) (s : AcqState),
      ((acqStep cfg dt s).1.cycleIndex = s.cycleIndex + 1 ↔
        (¬ s.stepIndex < cfg.stateChangeTimes.length ∧ s.finishedWrapUp = true ∧
          cfg.cycleDuration ≤ s.elapsed + dt)) ∧
      ((acqStep cfg dt s).1.cycleIndex = s.cycleIndex ∨
        (acqStep cfg dt s).1.cycleIndex = s.cycleIndex + 1) ∧
      ((acqStep cfg dt s).1.cycleIndex = s.cycleIndex + 1 →
        (acqStep cfg dt s).1.elapsed = s.elapsed + dt - cfg.cycleDuration) ∧
      ((acqStep cfg dt s).1.elapsed + (acqStep cfg dt s).1.cycleIndex * cfg.cycleDuration =
        s.elapsed + dt + s.cycleIndex * cfg.cycleDuration)) ∧
    (∀ (cfg : AcqConfig) (dts : List Nat) (serial : List Char) (oc : AcqOutcome)
      (sF : AcqState) (rest : List Nat),
      acqRunAux cfg dts (acqInit serial) = some (oc, sF, rest) →
        sF.boundaries = sF.cycleIndex ∧
        sF.elapsed + sF.cycleIndex * cfg.cycleDuration + rest.sum = dts.sum ∧
        (oc = AcqOutcome.finished → sF.boundaries = cfg.numCycles)) := by
  constructor
  · intro cfg dt s
    exact ⟨acqStep_cycleIndex_succ_iff cfg dt s, acqStep_cycleIndex_cases cfg dt s,
      fun h => (acqStep_boundary_elapsed cfg dt s h).1, acqStep_time_invariant cfg dt s⟩
  · intro cfg dts serial oc sF rest h
    have hb := acqRunAux_boundaries cfg dts (acqInit serial) oc sF rest h
    have hs := acqRunAux_sum cfg dts (acqInit serial) oc sF rest h
    simp only [acqInit] at hb hs
    refine ⟨by omega, by omega, fun hoc => ?_⟩
    subst hoc
    have := acqRunAux_finished_cycleIndex cfg dts (acqInit serial) sF rest h
      (by simp [acqInit])
    omega

/-- Witness for C2: a concrete two-cycle run with cycle duration 100. -/
theorem c2_cycle_boundary_carried_subtraction_witness :
    let cfg : AcqConfig :=
      { numCycles := 2, cycleDuration := 100, stateChangeTimes := [],
        cyclesPerRandomUpdate := 1 }
    let sF : AcqState :=
      { elapsed := 0, cycleIndex := 2, stepIndex := 0, finishedWrapUp := false,
        serialIn := [], outTokens := ["F"], boundaries := 2, usedModZero := false }
    sF.boundaries = sF.cycleIndex ∧
    sF.elapsed + sF.cycleIndex * cfg.cycleDuration + ([] : List Nat).sum =
      ([100, 0, 100, 0] : List Nat).sum ∧
    (AcqOutcome.finished = AcqOutcome.finished → sF.boundaries = cfg.numCycles) :=
  c2_cycle_boundary_carried_subtraction.2 _ [100, 0, 100, 0] [] AcqOutcome.finished _ []
    (by decide)

/-- C4: a run of `acquisitionLoop` (src/unnamed/part_000) that returns does
so in exactly one of two ways, and never without emitting its designated
token: either an interrupt byte was read at a wrap-up interrupt check, in
which case the emitted tokens end with exactly "INTERRUPTED", an 'I' byte
occurred in the serial input, and the remaining cycles are abandoned; or it
ran to natural completion, in which case the emitted tokens end with
exactly "F" and the final cycle index equals `num_cycles`. -/
theorem c4_exit_interrupted_or_finished :
    ∀ (cfg : AcqConfig) (dts : List Nat) (serial : List Char) (oc : AcqOutcome)
      (sF : AcqState) (rest : List Nat),
      acqRunAux cfg dts (acqInit serial) = some (oc, sF, rest) →
      ((oc = AcqOutcome.interrupted ∧ sF.outTokens = ["INTERRUPTED"] ∧ 'I' ∈ serial) ∨
       (oc = AcqOutcome.finished ∧ sF.outTokens = ["F"] ∧
         sF.cycleIndex = cfg.numCycles)) := by
  intro cfg dts serial oc sF rest h
  rcases acqRunAux_tokens cfg dts (acqInit serial) oc sF rest h with
    ⟨h1, h2, h3⟩ | ⟨h1, h2, -⟩
  · exact Or.inl ⟨h1, by simpa [acqInit] using h2, by simpa [acqInit] using h3⟩
  · subst h1
    refine Or.inr ⟨rfl, by simpa [acqInit] using h2, ?_⟩
    exact acqRunAux_finished_cycleIndex cfg dts (acqInit serial) sF rest h (by simp [acqInit])

/-- Witness for C4: a concrete run interrupted by an 'I' byte at the first
wrap-up check. -/
theorem c4_exit_interrupted_or_finished_witness :
    let cfg : AcqConfig :=
      { numCycles := 5, cycleDuration := 100, stateChangeTimes := [],
        cyclesPerRandomUpdate := 1 }
    let sF : AcqState :=
      { elapsed := 100, cycleIndex := 0, stepIndex := 0, finishedWrapUp := false,
        serialIn := [], outTokens := ["INTERRUPTED"], boundaries := 0,
        usedModZero := false }
    ((AcqOutcome.interrupted = AcqOutcome.interrupted ∧
        sF.outTokens = ["INTERRUPTED"] ∧ 'I' ∈ ['I']) ∨
     (AcqOutcome.interrupted = AcqOutcome.finished ∧ sF.outTokens = ["F"] ∧
        sF.cycleIndex = cfg.numCycles)) :=
  c4_exit_interrupted_or_finished _ [100, 0] ['I'] AcqOutcome.interrupted _ [0]
    (by decide)

/-! ## parseLine and strtoul (src/unnamed/part_000, lines 92-160)

C strings are modelled as `List Char` (the terminating null byte is the end
of the list), `unsigned long` values as `Nat` below 2^32, and the output
array of `parseLine` as the list of cells written, in order; `localCount`
always equals the number of cells written, so the list's length is the
value stored through the `count` pointer. -/

def ULONG_MAX_32 : Nat := 4294967295

/-- The whitespace characters skipped by the C library function strtoul. -/
def isSpaceChar (c : Char) : Bool :=
  c == ' ' || c == '\t' || c == '\n' || c == Char.ofNat 11 || c == Char.ofNat 12 || c == '\r'

/-- Consume a maximal run of decimal digits, accumulating their value onto
`acc`; returns the accumulated value, the number of digits consumed and the
remaining characters. -/
def parseDigitsGo : Nat → List Char → Nat × Nat × List Char
  | acc, [] => (acc, 0, [])
  | acc, c :: s =>
    if c.isDigit then
      let r := parseDigitsGo (acc * 10 + (c.toNat - 48)) s
      (r.1, r.2.1 + 1, r.2.2)
    else (acc, 0, c :: s)

/-- Model of the C library function `strtoul(nptr, &endptr, 10)` as used by
`parseLine`: skip whitespace, accept an optional sign, consume decimal
digits.  Returns (value, endptr suffix, whether a conversion happened);
with no conversion the returned suffix is the whole input, as C sets
`endptr = nptr`.  On overflow C returns ULONG_MAX, modelled by clamping;
a negated value wraps modulo 2^32. -/
def strtoulModel (s : List Char) : Nat × List Char × Bool :=
  let afterSpace := s.dropWhile isSpaceChar
  match afterSpace with
  | '-' :: r =>
    let p := parseDigitsGo 0 r
    if p.2.1 = 0 then (0, s, false)
    else ((2 ^ 32 - min p.1 ULONG_MAX_32) % 2 ^ 32, p.2.2, true)
  | '+' :: r =>
    let p := parseDigitsGo 0 r
    if p.2.1 = 0 then (0, s, false)
    else (min p.1 ULONG_MAX_32, p.2.2, true)
  | r =>
    let p := parseDigitsGo 0 r
    if p.2.1 = 0 then (0, s, false)
    else (min p.1 ULONG_MAX_32, p.2.2, true)

/-- One `while` loop of `parseLine` (src/unnamed/part_000, lines 98-119),
fueled: each iteration consumes at least one character, so fuel
`s.length + 1` suffices.  `acc` is the list of output cells written so far
(`localCount = acc.length`). -/
def parseLineGo : Nat → List Char → Nat → List Nat → List Nat
  | 0, _, _, acc => acc
  | fuel + 1, s, maxNumbers, acc =>
    if s = [] then acc
    else if maxNumbers ≤ acc.length then acc
    else
      let r := strtoulModel s
      if r.2.2 = false then acc
      else
        let rest :=
          match r.2.1 with
          | ',' :: t => t
          | t => t
        parseLineGo fuel rest maxNumbers (acc ++ [r.1])

/-- Embedding of `parseLine` (src/unnamed/part_000, lines 92-125): returns
the cells written to the output array, in order.  The value stored through
the `count` pointer is the length of this list. -/
def parseLine (s : List Char) (maxNumbers : Nat) : List Nat :=
  parseLineGo (s.length + 1) s maxNumbers []

/-- Decimal value of a token of digit characters, most significant first. -/
def decTokenVal (tok : List Char) : Nat :=
  tok.foldl (fun a c => a * 10 + (c.toNat - 48)) 0

/-- Join tokens with single comma separators, as in the comma-separated
lists sent by the host. -/
def joinCSV : List (List Char) → List Char
  | [] => []
  | [t] => t
  | t :: ts => t ++ ',' :: joinCSV ts

theorem parseDigitsGo_length : ∀ (s : List Char) (acc : Nat),
    (parseDigitsGo acc s).2.2.length + (parseDigitsGo acc s).2.1 = s.length
  | [], acc => by simp [parseDigitsGo]
  | c :: s, acc => by
    by_cases h : c.isDigit
    · have := parseDigitsGo_length s (acc * 10 + (c.toNat - 48))
      rw [parseDigitsGo]
      dsimp only
      rw [if_pos h]
      dsimp only
      simp only [List.length_cons]
      omega
    · simp [parseDigitsGo, h]

theorem parseDigitsGo_digits : ∀ (tok : List Char) (rest : List Char) (acc : Nat),
    (∀ c ∈ tok, c.isDigit = true) →
    (∀ c ∈ rest.head?, c.isDigit = false) →
    parseDigitsGo acc (tok ++ rest) =
      (tok.foldl (fun a c => a * 10 + (c.toNat - 48)) acc, tok.length, rest)
  | [], rest, acc => by
    intro _ hrest
    rcases rest with _ | ⟨c, r⟩
    · simp [parseDigitsGo]
    · have : c.isDigit = false := hrest c (by simp)
      simp [parseDigitsGo, this]
  | d :: tok', rest, acc => by
    intro hdig hrest
    have hd : d.isDigit = true := hdig d (List.mem_cons_self d tok')
    have ih := parseDigitsGo_digits tok' rest (acc * 10 + (d.toNat - 48))
      (fun c hc => hdig c (List.mem_cons_of_mem d hc)) hrest
    rw [List.cons_append, parseDigitsGo]
    dsimp only
    rw [if_pos hd]
    rw [ih]
    simp

theorem isDigit_head_facts (c : Char) (h : c.isDigit = true) :
    isSpaceChar c = false ∧ c ≠ '-' ∧ c ≠ '+' := by
  refine ⟨?_, ?_, ?_⟩
  · by_contra hs
    rw [Bool.not_eq_false] at hs
    simp only [isSpaceChar, Bool.or_eq_true, beq_iff_eq] at hs
    rcases hs with ((((hs | hs) | hs) | hs) | hs) | hs <;> subst hs <;>
      exact absurd h (by decide)
  · rintro rfl
    exact absurd h (by decide)
  · rintro rfl
    exact absurd h (by decide)

theorem strtoulModel_token (tok rest : List Char) (hne : tok ≠ [])
    (hdig : ∀ c ∈ tok, c.isDigit = true)
    (hrest : ∀ c ∈ rest.head?, c.isDigit = false) :
    strtoulModel (tok ++ rest) = (min (decTokenVal tok) ULONG_MAX_32, rest, true) := by
  rcases tok with _ | ⟨d, tok'⟩
  · exact absurd rfl hne
  · have hd : d.isDigit = true := hdig d (List.mem_cons_self d tok')
    have hfacts := isDigit_head_facts d hd
    have hdrop : (d :: (tok' ++ rest)).dropWhile isSpaceChar = d :: (tok' ++ rest) := by
      simp [List.dropWhile_cons, hfacts.1]
    have hpd := parseDigitsGo_digits (d :: tok') rest 0 hdig hrest
    unfold strtoulModel
    dsimp only
    rw [List.cons_append, hdrop]
    split
    · rename_i r hr
      rw [List.cons_eq_cons] at hr
      exact absurd hr.1 hfacts.2.1
    · rename_i r hr
      rw [List.cons_eq_cons] at hr
      exact absurd hr.1 hfacts.2.2
    · rename_i heq1 heq2
      rw [← List.cons_append, hpd]
      simp [decTokenVal]

theorem parseLineGo_nilInput : ∀ (fuel maxNumbers : Nat) (acc : List Nat),
    parseLineGo fuel [] maxNumbers acc = acc
  | 0, _, _ => rfl
  | fuel + 1, _, _ => by simp [parseLineGo]

theorem parseLineGo_joinCSV : ∀ (toks : List (List Char)) (fuel maxNumbers : Nat)
    (acc : List Nat),
    (∀ t ∈ toks, t ≠ [] ∧ ∀ c ∈ t, c.isDigit = true) →
    (joinCSV toks).length < fuel →
    parseLineGo fuel (joinCSV toks) maxNumbers acc =
      acc ++ (toks.map (fun t => min (decTokenVal t) ULONG_MAX_32)).take
        (maxNumbers - acc.length)
  | [], fuel, maxNumbers, acc => by
    intro _ hf
    simp [joinCSV, parseLineGo_nilInput]
  | t :: ts, fuel, maxNumbers, acc => by
    intro htoks hf
    obtain ⟨htne, htdig⟩ := htoks t (List.mem_cons_self t ts)
    have hlen1 : 1 ≤ t.length := by
      rcases t with _ | _
      · exact absurd rfl htne
      · simp
    rcases fuel with _ | f
    · omega
    rcases ts with _ | ⟨t2, ts'⟩
    · have hjoin : joinCSV [t] = t ++ [] := by simp [joinCSV]
      have hstr := strtoulModel_token t [] htne htdig (by intro c hc; simp at hc)
      have hne2 : t ++ ([] : List Char) ≠ [] := by simpa using htne
      rw [hjoin] at hf ⊢
      by_cases hmax : maxNumbers ≤ acc.length
      · have h0 : maxNumbers - acc.length = 0 := by omega
        simp [parseLineGo, hne2, hmax, h0]
      · have hk : maxNumbers - acc.length = (maxNumbers - acc.length - 1) + 1 := by omega
        rw [parseLineGo]
        dsimp only
        rw [if_neg hne2, if_neg hmax]
        rw [hstr]
        dsimp only
        rw [if_neg (by decide : ¬ ((true : Bool) = false))]
        rw [parseLineGo_nilInput, hk]
        simp
    · have hjoin : joinCSV (t :: t2 :: ts') = t ++ ',' :: joinCSV (t2 :: ts') := rfl
      have hstr := strtoulModel_token t (',' :: joinCSV (t2 :: ts')) htne htdig
        (by intro c hc; simp at hc; rw [← hc]; decide)
      have hne2 : t ++ ',' :: joinCSV (t2 :: ts') ≠ [] := by simp
      rw [hjoin] at hf ⊢
      by_cases hmax : maxNumbers ≤ acc.length
      · have h0 : maxNumbers - acc.length = 0 := by omega
        simp [parseLineGo, hne2, hmax, h0]
      · rw [parseLineGo]
        dsimp only
        rw [if_neg hne2, if_neg hmax]
        rw [hstr]
        dsimp only
        rw [if_neg (by decide : ¬ ((true : Bool) = false))]
        have hmatch : (match ',' :: joinCSV (t2 :: ts') with
            | ',' :: u => u
            | u => u) = joinCSV (t2 :: ts') := rfl
        rw [hmatch]
        have hrec := parseLineGo_joinCSV (t2 :: ts') f maxNumbers
          (acc ++ [min (decTokenVal t) ULONG_MAX_32])
          (fun u hu => htoks u (List.mem_cons_of_mem t hu))
          (by simp only [List.length_append, List.length_cons] at hf; omega)
        rw [hrec]
        have hlena : (acc ++ [min (decTokenVal t) ULONG_MAX_32]).length =
            acc.length + 1 := by simp
        rw [hlena]
        have hk : maxNumbers - acc.length = (maxNumbers - (acc.length + 1)) + 1 := by
          omega
        rw [hk]
        simp [List.take_succ_cons, List.append_assoc]

theorem parseLineGo_length : ∀ (fuel : Nat) (s : List Char) (maxNumbers : Nat)
    (acc : List Nat), acc.length ≤ maxNumbers →
    (parseLineGo fuel s maxNumbers acc).length ≤ maxNumbers := by
  intro fuel
  induction fuel with
  | zero =>
    intro s maxN acc h
    simpa [parseLineGo] using h
  | succ f ih =>
    intro s maxN acc h
    rw [parseLineGo]
    dsimp only
    by_cases h1 : s = []
    · simpa [h1] using h
    rw [if_neg h1]
    by_cases h2 : maxN ≤ acc.length
    · simpa [h2] using h
    rw [if_neg h2]
    by_cases h3 : (strtoulModel s).2.2 = false
    · simpa [h3] using h
    rw [if_neg h3]
    exact ih _ maxN _ (by simp; omega)

/-- C8: `parseLine` never writes more than `maxNumbers` cells of the output
array (the list of written cells has length at most `maxNumbers`, and cells
are only ever appended while the count is below `maxNumbers`), so the count
stored through the `count` pointer — the length of that list — lies between
0 and `maxNumbers`; and for a well-formed comma-separated list of decimal
numbers below 2^32, the numbers are stored exactly, in their original
order, with any excess beyond `maxNumbers` truncated rather than written
out of bounds. -/
theorem c8_parseLine_bounded_and_exact :
    (∀ (s : List Char) (maxNumbers : Nat), (parseLine s maxNumbers).length ≤ maxNumbers) ∧
    (∀ (toks : List (List Char)) (maxNumbers : Nat),
      (∀ t ∈ toks, t ≠ [] ∧ ∀ c ∈ t, c.isDigit = true) →
      (∀ t ∈ toks, decTokenVal t < 2 ^ 32) →
      parseLine (joinCSV toks) maxNumbers = (toks.map decTokenVal).take maxNumbers) := by
  constructor
  · intro s maxNumbers
    exact parseLineGo_length _ s maxNumbers [] (by simp)
  · intro toks maxNumbers htoks hbound
    unfold parseLine
    rw [parseLineGo_joinCSV toks _ maxNumbers [] htoks (by omega)]
    simp only [List.nil_append, Nat.sub_zero]
    congr 1
    apply List.map_congr_left
    intro t ht
    have := hbound t ht
    have : decTokenVal t ≤ ULONG_MAX_32 := by
      unfold ULONG_MAX_32
      omega
    exact Nat.min_eq_left this

/-- Witness for C8: parsing the two-element list "42,7" with capacity 18
yields exactly [42, 7]. -/
theorem c8_parseLine_bounded_and_exact_witness :
    parseLine (joinCSV [['4', '2'], ['7']]) 18 =
      (([['4', '2'], ['7']] : List (List Char)).map decTokenVal).take 18 :=
  c8_parseLine_bounded_and_exact.2 [['4', '2'], ['7']] 18 (by decide) (by decide)

/-! ## The interrupt-driven input logger of src/unnamed/part_002

`inputStateISR` (lines 91-104) walks the monitored pins; for each pin whose
current reading differs from its last-known state it appends one record
(pin, new state, elapsed time) to the three parallel log arrays, guarded by
`input_log_buffer_index < MAX_INPUT_STATE_CHANGES`, and updates the
last-known state (only inside the guard).  The three parallel arrays plus
`input_log_buffer_index` are modelled as a single list of records whose
length is the buffer index; an array write at the index followed by the
index increment is a list append.  The per-cycle flush (lines 219-227)
emits each buffered record with the current global `cycle_index` and resets
the index to 0. -/

def MAX_INPUT_STATE_CHANGES : Nat := 2000

/-- One record of the part_002 input log buffer (input_log_pins,
input_log_states, input_log_times at one index). -/
structure LogEntry where
  pin : Nat
  state : Nat
  time : Nat
deriving DecidableEq

/-- One binary edge report line: pin, state, time within cycle, cycle. -/
structure PinReport where
  pin : Nat
  state : Nat
  time : Nat
  cycle : Nat
deriving DecidableEq

/-- The loop body of `inputStateISR` over the remaining (pin, previous
state) pairs; `readPin` gives the current digitalRead value of a pin and
`t` the current `elapsed_cycle_time`.  Returns the updated previous-state
list and log buffer. -/
def inputStateISRGo (readPin : Nat → Nat) (t : Nat) :
    List (Nat × Nat) → List LogEntry → List Nat × List LogEntry
  | [], log => ([], log)
  | (p, pv) :: rest, log =>
    let cur := readPin p
    if cur ≠ pv then
      if log.length < MAX_INPUT_STATE_CHANGES then
        let r := inputStateISRGo readPin t rest
          (log ++ [{ pin := p, state := cur, time := t }])
        (cur :: r.1, r.2)
      else
        let r := inputStateISRGo readPin t rest log
        (pv :: r.1, r.2)
    else
      let r := inputStateISRGo readPin t rest log
      (pv :: r.1, r.2)

/-- Embedding of `inputStateISR` (src/unnamed/part_002, lines 91-104). -/
def inputStateISR (readPin : Nat → Nat) (t : Nat) (pins prev : List Nat)
    (log : List LogEntry) : List Nat × List LogEntry :=
  inputStateISRGo readPin t (pins.zip prev) log

/-- The (pin, previous state) pairs whose current reading differs from the
previous state: exactly the transitions the ISR call observes. -/
def changedPins (readPin : Nat → Nat) (ps : List (Nat × Nat)) : List (Nat × Nat) :=
  ps.filter (fun pc => readPin pc.1 != pc.2)

/-- The per-cycle log flush of part_002 `acquisitionLoop` (lines 219-226):
each buffered record is written over serial with the current cycle index.
The subsequent `input_log_buffer_index = 0` (line 227) empties the buffer. -/
def flushInputLogGo (cycleIdx : Nat) : List LogEntry → List PinReport
  | [] => []
  | r :: rest =>
    { pin := r.pin, state := r.state, time := r.time, cycle := cycleIdx } ::
      flushInputLogGo cycleIdx rest

theorem inputStateISRGo_capacity (readPin : Nat → Nat) (t : Nat) :
    ∀ (ps : List (Nat × Nat)) (log : List LogEntry),
    log.length ≤ MAX_INPUT_STATE_CHANGES →
    (inputStateISRGo readPin t ps log).2.length ≤ MAX_INPUT_STATE_CHANGES
  | [], log => by
    intro h
    simpa [inputStateISRGo] using h
  | (p, pv) :: rest, log => by
    intro h
    rw [inputStateISRGo]
    dsimp only
    by_cases h1 : readPin p ≠ pv
    · rw [if_pos h1]
      by_cases h2 : log.length < MAX_INPUT_STATE_CHANGES
      · rw [if_pos h2]
        exact inputStateISRGo_capacity readPin t rest _ (by simp; omega)
      · rw [if_neg h2]
        exact inputStateISRGo_capacity readPin t rest log h
    · rw [if_neg h1]
      exact inputStateISRGo_capacity readPin t rest log h

theorem inputStateISRGo_below_capacity (readPin : Nat → Nat) (t : Nat) :
    ∀ (ps : List (Nat × Nat)) (log : List LogEntry),
    log.length + (changedPins readPin ps).length ≤ MAX_INPUT_STATE_CHANGES →
    (inputStateISRGo readPin t ps log).2 =
      log ++ (changedPins readPin ps).map
        (fun pc => { pin := pc.1, state := readPin pc.1, time := t }) ∧
    (inputStateISRGo readPin t ps log).1 =
      ps.map (fun pc => if readPin pc.1 ≠ pc.2 then readPin pc.1 else pc.2)
  | [], log => by
    intro _
    simp [inputStateISRGo, changedPins]
  | (p, pv) :: rest, log => by
    intro h
    rw [inputStateISRGo]
    dsimp only
    by_cases h1 : readPin p ≠ pv
    · have hch : changedPins readPin ((p, pv) :: rest) =
          (p, pv) :: changedPins readPin rest := by
        simp [changedPins, List.filter_cons, bne_iff_ne, h1]
      rw [hch] at h ⊢
      have h2 : log.length < MAX_INPUT_STATE_CHANGES := by
        simp only [List.length_cons] at h
        omega
      rw [if_pos h1, if_pos h2]
      have ih := inputStateISRGo_below_capacity readPin t rest
        (log ++ [{ pin := p, state := readPin p, time := t }])
        (by simp only [List.length_append, List.length_cons] at h ⊢; simp; omega)
      refine ⟨?_, ?_⟩
      · rw [ih.1]
        simp [List.append_assoc]
      · rw [ih.2]
        simp [h1]
    · have hch : changedPins readPin ((p, pv) :: rest) = changedPins readPin rest := by
        simp [changedPins, List.filter_cons, bne_iff_ne, h1]
      rw [hch] at h ⊢
      rw [if_neg h1]
      have ih := inputStateISRGo_below_capacity readPin t rest log h
      refine ⟨ih.1, ?_⟩
      rw [ih.2]
      have h1e : readPin p = pv := not_not.mp h1
      simp [h1e]

theorem inputStateISRGo_full (readPin : Nat → Nat) (t : Nat) :
    ∀ (ps : List (Nat × Nat)) (log : List LogEntry),
    log.length = MAX_INPUT_STATE_CHANGES →
    (inputStateISRGo readPin t ps log).2 = log ∧
    (inputStateISRGo readPin t ps log).1 = ps.map Prod.snd
  | [], log => by
    intro _
    simp [inputStateISRGo]
  | (p, pv) :: rest, log => by
    intro h
    rw [inputStateISRGo]
    dsimp only
    have h2 : ¬ log.length < MAX_INPUT_STATE_CHANGES := by omega
    have ih := inputStateISRGo_full readPin t rest log h
    by_cases h1 : readPin p ≠ pv
    · rw [if_pos h1, if_neg h2]
      exact ⟨ih.1, by rw [List.map_cons]; exact congrArg _ ih.2⟩
    · rw [if_neg h1]
      exact ⟨ih.1, by rw [List.map_cons]; exact congrArg _ ih.2⟩

theorem flushInputLogGo_eq (cycleIdx : Nat) : ∀ (log : List LogEntry),
    flushInputLogGo cycleIdx log =
      log.map (fun e => PinReport.mk e.pin e.state e.time cycleIdx)
  | [] => rfl
  | r :: rest => by
    rw [flushInputLogGo, List.map_cons, flushInputLogGo_eq cycleIdx rest]

/-- C6: for transitions observed by a call of `inputStateISR` (strictly
between polls, so each changed pin is seen exactly once): while the buffer
has room, every transition appends exactly one record with the correct
(pin, state, time) fields, in pin order, and the last-known state of that
pin is updated, with no duplicates; the buffer length never exceeds
`MAX_INPUT_STATE_CHANGES`; once the buffer is full, new records are dropped
(drop-newest) and no write occurs at or beyond the capacity; and the
per-cycle flush emits each buffered record exactly once with the current
cycle index attached. -/
theorem c6_isr_exact_logging_and_overflow :
    (∀ (readPin : Nat → Nat) (t : Nat) (pins prev : List Nat) (log : List LogEntry),
      log.length ≤ MAX_INPUT_STATE_CHANGES →
      (inputStateISR readPin t pins prev log).2.length ≤ MAX_INPUT_STATE_CHANGES) ∧
    (∀ (readPin : Nat → Nat) (t : Nat) (pins prev : List Nat) (log : List LogEntry),
      log.length + (changedPins readPin (pins.zip prev)).length ≤
        MAX_INPUT_STATE_CHANGES →
      (inputStateISR readPin t pins prev log).2 =
        log ++ (changedPins readPin (pins.zip prev)).map
          (fun pc => LogEntry.mk pc.1 (readPin pc.1) t) ∧
      (inputStateISR readPin t pins prev log).1 =
        (pins.zip prev).map
          (fun pc => if readPin pc.1 ≠ pc.2 then readPin pc.1 else pc.2)) ∧
    (∀ (readPin : Nat → Nat) (t : Nat) (pins prev : List Nat) (log : List LogEntry),
      log.length = MAX_INPUT_STATE_CHANGES →
      (inputStateISR readPin t pins prev log).2 = log ∧
      (inputStateISR readPin t pins prev log).1 = (pins.zip prev).map Prod.snd) ∧
    (∀ (cycleIdx : Nat) (log : List LogEntry),
      flushInputLogGo cycleIdx log =
        log.map (fun e => PinReport.mk e.pin e.state e.time cycleIdx)) := by
  refine ⟨?_, ?_, ?_, ?_⟩
  · intro readPin t pins prev log h
    exact inputStateISRGo_capacity readPin t (pins.zip prev) log h
  · intro readPin t pins prev log h
    exact inputStateISRGo_below_capacity readPin t (pins.zip prev) log h
  · intro readPin t pins prev log h
    exact inputStateISRGo_full readPin t (pins.zip prev) log h
  · intro cycleIdx log
    exact flushInputLogGo_eq cycleIdx log

/-- Witness for C6: two pins, one of which has changed state, logged into
an empty buffer. -/
theorem c6_isr_exact_logging_and_overflow_witness :
    (inputStateISR (fun p => if p = 33 then 1 else 0) 250 [33, 34] [0, 0] []).2 =
      [] ++ (changedPins (fun p => if p = 33 then 1 else 0)
        ([33, 34].zip [0, 0])).map
        (fun pc => LogEntry.mk pc.1 ((fun p => if p = 33 then 1 else 0) pc.1) 250) ∧
    (inputStateISR (fun p => if p = 33 then 1 else 0) 250 [33, 34] [0, 0] []).1 =
      (([33, 34].zip [0, 0]).map
        (fun pc => if (fun p => if p = 33 then 1 else 0) pc.1 ≠ pc.2 then
          (fun p => if p = 33 then 1 else 0) pc.1 else pc.2)) :=
  c6_isr_exact_logging_and_overflow.2.1 (fun p => if p = 33 then 1 else 0) 250
    [33, 34] [0, 0] [] (by decide)

/-! ## The initialization phase of part_000 acquisitionLoop (lines 206-238)

Before the cycle loop starts, `acquisitionLoop` samples every monitored
input pin and reports it with time 0 via `reportPinState`, then (after
setting the global `cycle_index` to 0) initializes the random bit to 0,
writes it to every random output pin and reports each with time 0.  Note
the input-pin reports are emitted before the `cycle_index = 0` assignment
on line 222, so they carry the stale global cycle index. -/

/-- Embedding of `reportPinState` (src/unnamed/part_000, lines 169-177):
the binary record written over serial, including the global cycle index at
call time. -/
def reportPinState (pin state time cycleIndex : Nat) : PinReport :=
  { pin := pin, state := state, time := time, cycle := cycleIndex }

/-- The input-pin initialization loop (lines 208-213): samples each pin into
`previous_input_pin_states` and reports it with time 0. -/
def part000_initInputPins (readPin : Nat → Nat) (cycleIdx : Nat) :
    List Nat → List Nat × List PinReport
  | [] => ([], [])
  | p :: rest =>
    let st := readPin p
    let r := part000_initInputPins readPin cycleIdx rest
    (st :: r.1, reportPinState p st 0 cycleIdx :: r.2)

/-- The random-output-pin initialization loop (lines 229-235): writes the
initial random bit (0) to each pin and reports it with time 0. -/
def part000_initRandomPins (cycleIdx randomBit : Nat) : List Nat → List PinReport
  | [] => []
  | p :: rest =>
    reportPinState p randomBit 0 cycleIdx ::
      part000_initRandomPins cycleIdx randomBit rest

/-- The initialization phase of `acquisitionLoop` (lines 206-238): input
pins first (with the stale cycle index), then `cycle_index = 0`, then the
random pins with random bit 0.  Returns the sampled previous states and the
emitted reports in order. -/
def part000_initPhase (inputPins : List Nat) (readPin : Nat → Nat)
    (randomOutputPins : List Nat) (staleCycleIndex : Nat) :
    List Nat × List PinReport :=
  let ri := part000_initInputPins readPin staleCycleIndex inputPins
  let rr := part000_initRandomPins 0 0 randomOutputPins
  (ri.1, ri.2 ++ rr)

theorem part000_initInputPins_eq (readPin : Nat → Nat) (cycleIdx : Nat) :
    ∀ (pins : List Nat),
    part000_initInputPins readPin cycleIdx pins =
      (pins.map readPin,
        pins.map (fun p => reportPinState p (readPin p) 0 cycleIdx))
  | [] => rfl
  | p :: rest => by
    rw [part000_initInputPins]
    rw [part000_initInputPins_eq readPin cycleIdx rest]
    simp

theorem part000_initRandomPins_eq (cycleIdx randomBit : Nat) : ∀ (pins : List Nat),
    part000_initRandomPins cycleIdx randomBit pins =
      pins.map (fun p => reportPinState p randomBit 0 cycleIdx)
  | [] => rfl
  | p :: rest => by
    rw [part000_initRandomPins, List.map_cons,
      part000_initRandomPins_eq cycleIdx randomBit rest]

/-- C10: at the start of every accepted session, before the first cycle,
the firmware emits one report with time 0 for each monitored input pin,
carrying its initially sampled state, followed by one report with time 0
and state 0 for each random-broadcast output pin; every emitted
initialization report has time 0, so the absolute state of every reported
pin is decodable from the edge stream alone. -/
theorem c10_initial_reports :
    ∀ (inputPins : List Nat) (readPin : Nat → Nat) (randomOutputPins : List Nat)
      (staleCycleIndex : Nat),
      (part000_initPhase inputPins readPin randomOutputPins staleCycleIndex).2 =
        inputPins.map (fun p => reportPinState p (readPin p) 0 staleCycleIndex) ++
          randomOutputPins.map (fun p => reportPinState p 0 0 0) ∧
      (part000_initPhase inputPins readPin randomOutputPins staleCycleIndex).1 =
        inputPins.map readPin ∧
      ∀ r ∈ (part000_initPhase inputPins readPin randomOutputPins staleCycleIndex).2,
        r.time = 0 := by
  intro inputPins readPin randomOutputPins staleCycleIndex
  have h1 := part000_initInputPins_eq readPin staleCycleIndex inputPins
  have h2 := part000_initRandomPins_eq 0 0 randomOutputPins
  unfold part000_initPhase
  rw [h1, h2]
  refine ⟨rfl, rfl, ?_⟩
  intro r hr
  rcases List.mem_append.mp hr with hm | hm <;>
    obtain ⟨p, -, rfl⟩ := List.mem_map.mp hm <;> rfl

/-- Witness for C10 at a concrete configuration: two input pins, one random
output pin, stale cycle index 7. -/
theorem c10_initial_reports_witness :
    (part000_initPhase [33, 34] (fun p => p % 2) [5] 7).2 =
      ([33, 34] : List Nat).map
        (fun p => reportPinState p ((fun p => p % 2) p) 0 7) ++
        ([5] : List Nat).map (fun p => reportPinState p 0 0 0) ∧
    (part000_initPhase [33, 34] (fun p => p % 2) [5] 7).1 =
      ([33, 34] : List Nat).map (fun p => p % 2) ∧
    ∀ r ∈ (part000_initPhase [33, 34] (fun p => p % 2) [5] 7).2, r.time = 0 :=
  c10_initial_reports [33, 34] (fun p => p % 2) [5] 7

/-! ## The serial command loops of src/unnamed/part_000 (lines 314-400) and
caleb_refactor.ino (lines 272-362)

Both loops read a first byte, then a fixed sequence of newline-terminated
body lines, then a footer.  A packet offered to the reader is modelled as
that sequence of fields.  `flushedRx` records whether the path called
`Serial.flush()` before dispatching — the source's means of discarding
stale receive-buffer bytes.  In part_000, the byte read right after STX
(the newline, line 338) carries no information and is not a field; the
footer is the first character of the footer line
(`Serial.readStringUntil('\n')[0]`, line 374; out-of-range Arduino String
indexing yields the 0 byte, modelled by `headD`).  In caleb_refactor the
footer is a single byte read by `Serial.read()` (line 331); the
unconditional `Serial.flush()` at the very end of `loop()` (line 361) runs
after the dispatch on every path and is not part of command validation. -/

def MAX_INPUT_PINS : Nat := 18
def MAX_RANDOM_OUTPUT_PINS : Nat := 20
def MAX_OUTPUT_STATE_CHANGES : Nat := 200
def STX_BYTE : Nat := 2
def ETX_CHAR : Char := Char.ofNat 3

/-- The value returned by strtoul (discarding endptr), as used for the
single-integer fields. -/
def strtoulValue (s : List Char) : Nat := (strtoulModel s).1

/-- The fields of one command packet as read by part_000's `loop`:
first byte, eight body lines, footer line. -/
structure Part000Packet where
  firstByte : Nat
  numCyclesLine : List Char
  cycleDurationLine : List Char
  inputPinsLine : List Char
  randomOutputPinsLine : List Char
  cyclesPerRandomUpdateLine : List Char
  stateChangeTimesLine : List Char
  stateChangePinsLine : List Char
  stateChangeStatesLine : List Char
  footerLine : List Char
deriving DecidableEq

/-- The session parameters parsed from a part_000 packet (lines 341-371):
`num_state_changes` is the count reported by parseLine on the times line,
i.e. the length of `stateChangeTimes`. -/
structure Part000Session where
  numCycles : Nat
  cycleDuration : Nat
  inputPins : List Nat
  randomOutputPins : List Nat
  cyclesPerRandomUpdate : Nat
  stateChangeTimes : List Nat
  stateChangePins : List Nat
  stateChangeStates : List Nat
deriving DecidableEq

/-- Observable outcome of one pass of a command-reading loop. -/
structure SerialLoopResult where
  flushedRx : Bool
  replies : List String
  entered : Bool
deriving DecidableEq

def part000_parseSession (pkt : Part000Packet) : Part000Session :=
  { numCycles := strtoulValue pkt.numCyclesLine,
    cycleDuration := strtoulValue pkt.cycleDurationLine,
    inputPins := parseLine pkt.inputPinsLine MAX_INPUT_PINS,
    randomOutputPins := parseLine pkt.randomOutputPinsLine MAX_RANDOM_OUTPUT_PINS,
    cyclesPerRandomUpdate := strtoulValue pkt.cyclesPerRandomUpdateLine,
    stateChangeTimes := parseLine pkt.stateChangeTimesLine MAX_OUTPUT_STATE_CHANGES,
    stateChangePins := parseLine pkt.stateChangePinsLine MAX_OUTPUT_STATE_CHANGES,
    stateChangeStates := parseLine pkt.stateChangeStatesLine MAX_OUTPUT_STATE_CHANGES }

/-- Embedding of part_000's `loop` (lines 322-399): a non-STX first byte
flushes and replies ERROR; with STX the body is parsed, and a footer line
not starting with ETX replies ERROR without flushing (lines 377-380);
otherwise RECEIVED is sent and `acquisitionLoop` is entered with the parsed
session. -/
def part000_loopModel (pkt : Part000Packet) : SerialLoopResult × Option Part000Session :=
  if pkt.firstByte ≠ STX_BYTE then
    ({ flushedRx := true, replies := ["ERROR"], entered := false }, none)
  else
    let sess := part000_parseSession pkt
    let lastChar := pkt.footerLine.headD (Char.ofNat 0)
    if lastChar ≠ ETX_CHAR then
      ({ flushedRx := false, replies := ["ERROR"], entered := false }, none)
    else
      ({ flushedRx := false, replies := ["RECEIVED"], entered := true }, some sess)

/-- The fields of one command packet as read by caleb_refactor's `loop`:
first byte, nine body lines, footer byte. -/
structure CalebPacket where
  firstByte : Nat
  numCyclesLine : List Char
  cycleDurationLine : List Char
  inputPinsLine : List Char
  cyclesPerInputCheckLine : List Char
  randomOutputPinsLine : List Char
  cyclesPerRandomUpdateLine : List Char
  stateChangeTimesLine : List Char
  stateChangePinsLine : List Char
  stateChangeStatesLine : List Char
  footerByte : Nat
deriving DecidableEq

/-- Embedding of caleb_refactor's `loop` (lines 272-362): a non-STX first
byte flushes and replies ERROR (lines 285-288); a non-ETX footer byte also
flushes and replies ERROR (lines 335-338); otherwise RECEIVED is sent and
`acquisitionLoop` is entered. -/
def caleb_loopModel (pkt : CalebPacket) : SerialLoopResult :=
  if pkt.firstByte ≠ STX_BYTE then
    { flushedRx := true, replies := ["ERROR"], entered := false }
  else if pkt.footerByte ≠ 3 then
    { flushedRx := true, replies := ["ERROR"], entered := false }
  else
    { flushedRx := false, replies := ["RECEIVED"], entered := true }

/-- A part_000 packet with a correct STX first byte but a bad footer. -/
def c3BadFooterPkt : Part000Packet :=
  { firstByte := 2, numCyclesLine := ['1'], cycleDurationLine := ['1', '0', '0', '0'],
    inputPinsLine := [], randomOutputPinsLine := [],
    cyclesPerRandomUpdateLine := ['1'], stateChangeTimesLine := [],
    stateChangePinsLine := [], stateChangeStatesLine := [], footerLine := ['X'] }

/-- C3 counterexample: in part_000's `loop`, a packet with a correct STX
header but a footer that is not ETX replies ERROR and never enters the
acquisition loop, yet does NOT flush the receive buffer — the claim's
"the receive buffer is flushed" fails on the bad-footer path of this
variant. -/
theorem c3_counterexample_no_flush_on_bad_footer :
    c3BadFooterPkt.firstByte = STX_BYTE ∧
    c3BadFooterPkt.footerLine.headD (Char.ofNat 0) ≠ ETX_CHAR ∧
    (part000_loopModel c3BadFooterPkt).1.replies = ["ERROR"] ∧
    (part000_loopModel c3BadFooterPkt).1.entered = false ∧
    (part000_loopModel c3BadFooterPkt).1.flushedRx = false := by
  decide

/-- C3 (amended): a non-STX first byte causes a receive-buffer flush, the
single reply ERROR, and no entry into the acquisition loop, in both
variants; a correct STX with a non-ETX footer causes the single reply
ERROR and no entry in both variants, with the receive buffer flushed in
the caleb_refactor variant but NOT in the part_000 variant; the
acquisition loop is entered exactly when the STX header and the ETX footer
are both correct. -/
theorem c3_framing_rejection_amended :
    ∀ (p : Part000Packet) (q : CalebPacket),
      (p.firstByte ≠ STX_BYTE →
        (part000_loopModel p).1 =
          { flushedRx := true, replies := ["ERROR"], entered := false } ∧
        (part000_loopModel p).2 = none) ∧
      (p.firstByte = STX_BYTE → p.footerLine.headD (Char.ofNat 0) ≠ ETX_CHAR →
        (part000_loopModel p).1 =
          { flushedRx := false, replies := ["ERROR"], entered := false } ∧
        (part000_loopModel p).2 = none) ∧
      ((part000_loopModel p).1.entered = true ↔
        (p.firstByte = STX_BYTE ∧ p.footerLine.headD (Char.ofNat 0) = ETX_CHAR)) ∧
      (q.firstByte ≠ STX_BYTE →
        caleb_loopModel q =
          { flushedRx := true, replies := ["ERROR"], entered := false }) ∧
      (q.firstByte = STX_BYTE → q.footerByte ≠ 3 →
        caleb_loopModel q =
          { flushedRx := true, replies := ["ERROR"], entered := false }) ∧
      ((caleb_loopModel q).entered = true ↔
        (q.firstByte = STX_BYTE ∧ q.footerByte = 3)) := by
  intro p q
  refine ⟨?_, ?_, ?_, ?_, ?_, ?_⟩
  · intro h1
    simp [part000_loopModel, h1]
  · intro h1 h2
    rw [List.headD_eq_head?] at h2
    simp [part000_loopModel, h1, h2]
  · unfold part000_loopModel
    by_cases h1 : p.firstByte = STX_BYTE
    · by_cases h2 : p.footerLine.headD (Char.ofNat 0) = ETX_CHAR <;>
        rw [List.headD_eq_head?] at h2 <;> simp [h1, h2, List.headD_eq_head?]
    · simp [h1]
  · intro h1
    simp [caleb_loopModel, h1]
  · intro h1 h2
    simp [caleb_loopModel, h1, h2]
  · unfold caleb_loopModel
    by_cases h1 : q.firstByte = STX_BYTE
    · by_cases h2 : q.footerByte = 3 <;> simp [h1, h2]
    · simp [h1]

/-- A part_000 packet whose first byte is not STX. -/
def c3BadStxPkt : Part000Packet :=
  { firstByte := 65, numCyclesLine := ['1'], cycleDurationLine := ['1'],
    inputPinsLine := [], randomOutputPinsLine := [],
    cyclesPerRandomUpdateLine := ['1'], stateChangeTimesLine := [],
    stateChangePinsLine := [], stateChangeStatesLine := [],
    footerLine := [Char.ofNat 3] }

/-- A caleb_refactor packet with a correct STX first byte but a bad footer
byte. -/
def c3CalebBadFooterPkt : CalebPacket :=
  { firstByte := 2, numCyclesLine := ['1'], cycleDurationLine := ['1'],
    inputPinsLine := [], cyclesPerInputCheckLine := ['1'],
    randomOutputPinsLine := [], cyclesPerRandomUpdateLine := ['1'],
    stateChangeTimesLine := [], stateChangePinsLine := [],
    stateChangeStatesLine := [], footerByte := 65 }

/-- Witness for the amended C3 at concrete malformed packets. -/
theorem c3_framing_rejection_amended_witness :
    ((part000_loopModel c3BadStxPkt).1 =
        { flushedRx := true, replies := ["ERROR"], entered := false } ∧
      (part000_loopModel c3BadStxPkt).2 = none) ∧
    caleb_loopModel c3CalebBadFooterPkt =
      { flushedRx := true, replies := ["ERROR"], entered := false } :=
  ⟨(c3_framing_rejection_amended c3BadStxPkt c3CalebBadFooterPkt).1 (by decide),
   (c3_framing_rejection_amended c3BadStxPkt c3CalebBadFooterPkt).2.2.2.2.1
     (by decide) (by decide)⟩

/-- The acquisition-loop configuration carried by a parsed part_000
session: `num_state_changes` is the length of the times list. -/
def acqConfigOfSession (sess : Part000Session) : AcqConfig :=
  { numCycles := sess.numCycles, cycleDuration := sess.cycleDuration,
    stateChangeTimes := sess.stateChangeTimes,
    cyclesPerRandomUpdate := sess.cyclesPerRandomUpdate }

/-- A packet with correct STX and ETX framing whose cycles-per-random-update
field is the single character '0'. -/
def c9ZeroCpruPkt : Part000Packet :=
  { firstByte := 2, numCyclesLine := ['1'], cycleDurationLine := ['1', '0', '0', '0'],
    inputPinsLine := [], randomOutputPinsLine := [],
    cyclesPerRandomUpdateLine := ['0'], stateChangeTimesLine := [],
    stateChangePinsLine := [], stateChangeStatesLine := [],
    footerLine := [Char.ofNat 3] }

/-- C9 is violated by the code: the framing check constrains only the STX
and ETX sentinels, so the packet `c9ZeroCpruPkt` is accepted with
`cycles_per_random_update = 0`, and running the accepted session reaches a
cycle boundary at which the guard `cycle_index % cycles_per_random_update`
is evaluated with divisor 0 (undefined behaviour in the C source; the ghost
flag `usedModZero` records the evaluation). -/
theorem c9_mod_zero_reachable :
    (part000_loopModel c9ZeroCpruPkt).1.entered = true ∧
    ((part000_loopModel c9ZeroCpruPkt).2.map
      (fun sess => sess.cyclesPerRandomUpdate)) = some 0 ∧
    ((part000_loopModel c9ZeroCpruPkt).2.map (fun sess =>
      (acqRunAux (acqConfigOfSession sess) [1000, 0] (acqInit [])).map
        (fun r => r.2.1.usedModZero))) = some (some true) := by
  decide

/-! ## The trigger engine and serial loop of src/unnamed/part_001

The engine state gathers the elapsedMicros timers, the trigger/IR/await
flags and frame indices of part_001, plus the trace of digitalWrite calls
(pin, level), the serial input and the lines printed from inside the
acquisition loop.  Each iteration of the `while` loop in `runAcquisition`
advances every free-running timer by the clock increment `dt`; the
`elapsedMillis sinceInterruptCheck` timer is kept in microseconds, with its
millisecond threshold scaled by 1000.  Serial prints outside the
acquisition loop touch no engine state and are not modelled.  The frame
time tables produced by `getBaslerFrameTimes` are non-negative (C1), so
the plain integer comparison with the timers agrees with the C unsigned
comparison. -/

def interrupt_check_period_millis : Nat := 1000

structure Part001Engine where
  previousPulse : Nat
  baslerFrameTimer : Nat
  prevBaslerTrigTOP : Nat
  prevBaslerTrigBOTTOM : Nat
  idxTOP : Nat
  idxBOTTOM : Nat
  azureTriggerState : Nat
  baslerTrigStateTOP : Nat
  baslerIrStateTOP : Nat
  awaitAzureTOP : Nat
  baslerTrigStateBOTTOM : Nat
  baslerIrStateBOTTOM : Nat
  awaitAzureBOTTOM : Nat
  sinceInterruptCheckUsec : Nat
  doneFlag : Nat
  pinWrites : List (Nat × Nat)
  serialIn : List Char
  serialOut : List String
deriving DecidableEq

/-- Embedding of `azure_pulse_logic` (src/unnamed/part_001, lines 151-208):
start a sync pulse when the inter-pulse period has elapsed — carrying the
overshoot forward by subtraction — and hard-reset the Basler cycle; end the
pulse after the trigger width.  Returns the `started_frame` flag. -/
def azure_pulse_logic (e : Part001Engine) : Part001Engine × Nat :=
  if e.azureTriggerState = 0 ∧ AZURE_INV_RATE_USEC ≤ e.previousPulse then
    ({ e with
        pinWrites := e.pinWrites ++ [(azure_trigger_pin, 1)],
        azureTriggerState := 1,
        previousPulse := e.previousPulse - AZURE_INV_RATE_USEC,
        baslerFrameTimer := 0,
        idxTOP := 0, idxBOTTOM := 0,
        awaitAzureTOP := 0, awaitAzureBOTTOM := 0 }, 1)
  else if e.azureTriggerState = 1 ∧ AZURE_TRIG_WIDTH_USEC ≤ e.previousPulse then
    ({ e with
        pinWrites := e.pinWrites ++ [(azure_trigger_pin, 0)],
        azureTriggerState := 0 }, 0)
  else
    (e, 0)

/-- Embedding of `toggle_camera_triggers` (lines 143-149): writes `level`
to each of the given trigger pins. -/
def toggle_camera_triggers (pins : List Nat) (level : Nat)
    (e : Part001Engine) : Part001Engine :=
  { e with pinWrites := e.pinWrites ++ pins.map (fun p => (p, level)) }

/-- Embedding of `basler_pulse_logic` (lines 353-462): for each camera
group, start a frame (trigger pins and IR LEDs high, advance or wrap the
frame index) when the frame timer reaches the next scheduled offset and
the group is not awaiting the Azure; end the trigger after the trigger
width; turn the IR LEDs off after the IR pulse width. -/
def basler_pulse_logic (numElements : Nat) (timesTop timesBottom : List Int)
    (e0 : Part001Engine) : Part001Engine :=
  let e1 :=
    if e0.baslerTrigStateTOP = 0 ∧ timesTop.getD e0.idxTOP 0 ≤ (e0.baslerFrameTimer : Int) ∧
        e0.awaitAzureTOP = 0 then
      let ea := toggle_camera_triggers basler_trigger_pins_TOP 1 e0
      let eb := { ea with
        pinWrites := ea.pinWrites ++ LED_IR_TOP.map (fun p => (p, 1)),
        baslerTrigStateTOP := 1, baslerIrStateTOP := 1, prevBaslerTrigTOP := 0 }
      if eb.idxTOP < numElements - 1 then { eb with idxTOP := eb.idxTOP + 1 }
      else { eb with idxTOP := 0, awaitAzureTOP := 1 }
    else if e0.baslerTrigStateTOP = 1 ∧ BASLER_TRIG_WIDTH_USEC ≤ e0.prevBaslerTrigTOP then
      let ea := toggle_camera_triggers basler_trigger_pins_TOP 0 e0
      { ea with baslerTrigStateTOP := 0 }
    else e0
  let e2 :=
    if BASLER_IR_PULSE_WIDTH_USEC ≤ e1.prevBaslerTrigTOP ∧ e1.baslerIrStateTOP = 1 then
      { e1 with
        pinWrites := e1.pinWrites ++ LED_IR_TOP.map (fun p => (p, 0)),
        baslerIrStateTOP := 0 }
    else e1
  let e3 :=
    if timesBottom.getD e2.idxBOTTOM 0 ≤ (e2.baslerFrameTimer : Int) ∧
        e2.baslerTrigStateBOTTOM = 0 ∧ e2.awaitAzureBOTTOM = 0 then
      let ea := toggle_camera_triggers basler_trigger_pins_BOTTOM 1 e2
      let eb := { ea with
        pinWrites := ea.pinWrites ++ LED_IR_BOTTOM.map (fun p => (p, 1)),
        baslerTrigStateBOTTOM := 1, baslerIrStateBOTTOM := 1, prevBaslerTrigBOTTOM := 0 }
      if eb.idxBOTTOM < numElements - 1 then { eb with idxBOTTOM := eb.idxBOTTOM + 1 }
      else { eb with idxBOTTOM := 0, awaitAzureBOTTOM := 1 }
    else if BASLER_TRIG_WIDTH_USEC ≤ e2.prevBaslerTrigBOTTOM ∧
        e2.baslerTrigStateBOTTOM = 1 then
      let ea := toggle_camera_triggers basler_trigger_pins_BOTTOM 0 e2
      { ea with baslerTrigStateBOTTOM := 0 }
    else e2
  if BASLER_IR_PULSE_WIDTH_USEC ≤ e3.prevBaslerTrigBOTTOM ∧ e3.baslerIrStateBOTTOM = 1 then
    { e3 with
      pinWrites := e3.pinWrites ++ LED_IR_BOTTOM.map (fun p => (p, 0)),
      baslerIrStateBOTTOM := 0 }
  else e3

/-- Advance every free-running elapsedMicros/elapsedMillis timer by the
clock increment between two iterations of the acquisition loop. -/
def part001_advanceTimers (dt : Nat) (e : Part001Engine) : Part001Engine :=
  { e with
    previousPulse := e.previousPulse + dt,
    baslerFrameTimer := e.baslerFrameTimer + dt,
    prevBaslerTrigTOP := e.prevBaslerTrigTOP + dt,
    prevBaslerTrigBOTTOM := e.prevBaslerTrigBOTTOM + dt,
    sinceInterruptCheckUsec := e.sinceInterruptCheckUsec + dt }

/-- The fueled `while (current_cycle < num_cycles)` loop of
`runAcquisition` (lines 497-517): azure logic, cycle counting, basler
logic, then — once the interrupt-check period has elapsed, as that timer is
never reset — a serial read and `break` when any input byte is available.
Running out of fuel returns the state reached so far. -/
def runAcquisitionGo (numCycles numElements : Nat) (timesTop timesBottom : List Int) :
    List Nat → Nat → Part001Engine → Part001Engine × Nat
  | [], currentCycle, e => (e, currentCycle)
  | dt :: dts, currentCycle, e =>
    if currentCycle < numCycles then
      let e1 := part001_advanceTimers dt e
      let ra := azure_pulse_logic e1
      let cc := currentCycle + ra.2
      let e2 := basler_pulse_logic numElements timesTop timesBottom ra.1
      if interrupt_check_period_millis * 1000 ≤ e2.sinceInterruptCheckUsec then
        match e2.serialIn with
        | _c :: restSerial =>
          ({ e2 with
              serialIn := restSerial,
              serialOut := e2.serialOut ++ ["Breaking!"] }, cc)
        | [] => runAcquisitionGo numCycles numElements timesTop timesBottom dts cc e2
      else runAcquisitionGo numCycles numElements timesTop timesBottom dts cc e2
    else (e, currentCycle)

/-- Embedding of `runAcquisition` (lines 484-519): restart the azure clock,
stall both Basler groups until the first sync pulse, run the loop, set
`done`. -/
def runAcquisition (dts : List Nat) (numCycles numElements : Nat)
    (timesTop timesBottom : List Int) (e : Part001Engine) : Part001Engine :=
  let e1 := { e with previousPulse := 0, awaitAzureTOP := 1, awaitAzureBOTTOM := 1 }
  let r := runAcquisitionGo numCycles numElements timesTop timesBottom dts 0 e1
  { r.1 with doneFlag := 1 }

structure Part001SessionResult where
  engine : Part001Engine
  started : Bool
deriving DecidableEq

/-- Embedding of the command-dispatch portion of part_001's `loop`
(lines 575-651), given the two longs decoded from the 8 received bytes:
the framerate is validated with `check_requested_framerate`, and only when
it is valid are the frame-time tables computed and `runAcquisition` run;
otherwise nothing beyond the validation happens. -/
def part001_session (numCycles : Nat) (invFramerate : Int) (dts : List Nat)
    (e : Part001Engine) : Part001SessionResult :=
  let ok := check_requested_framerate invFramerate
  if ok then
    let timesTop := getBaslerFrameTimes invFramerate NUM_AZURES "top"
    let timesBottom := getBaslerFrameTimes invFramerate NUM_AZURES "bottom"
    let numElements := getNumFrameTimeElements invFramerate
    { engine := runAcquisition dts numCycles numElements timesTop timesBottom e,
      started := true }
  else
    { engine := e, started := false }

/-- The engine state at boot. -/
def part001_initEngine : Part001Engine :=
  { previousPulse := 0, baslerFrameTimer := 0, prevBaslerTrigTOP := 0,
    prevBaslerTrigBOTTOM := 0, idxTOP := 0, idxBOTTOM := 0,
    azureTriggerState := 0, baslerTrigStateTOP := 0, baslerIrStateTOP := 0,
    awaitAzureTOP := 0, baslerTrigStateBOTTOM := 0, baslerIrStateBOTTOM := 0,
    awaitAzureBOTTOM := 0, sinceInterruptCheckUsec := 0, doneFlag := 0,
    pinWrites := [], serialIn := [], serialOut := [] }

/-- C5: for every inverse framerate outside the supported set,
`check_requested_framerate` returns false, the session is rejected before
any acquisition starts — `runAcquisition` is never run — and for every
cycle count, clock trace and engine state, the engine is left exactly as it
was: in particular no trigger pin is written and no timing state is
mutated. -/
theorem c5_unsupported_framerate_rejected (invFramerate : Int)
    (h : invFramerate ∉ VALID_INV_FRAMERATES) :
    check_requested_framerate invFramerate = false ∧
    ∀ (numCycles : Nat) (dts : List Nat) (e : Part001Engine),
      (part001_session numCycles invFramerate dts e).started = false ∧
      (part001_session numCycles invFramerate dts e).engine = e ∧
      (part001_session numCycles invFramerate dts e).engine.pinWrites = e.pinWrites := by
  have hc : check_requested_framerate invFramerate = false := by
    rw [check_requested_framerate_eq]
    exact decide_eq_false h
  refine ⟨hc, ?_⟩
  intro numCycles dts e
  refine ⟨?_, ?_, ?_⟩ <;> simp [part001_session, hc]

/-- Witness for C5 at the unsupported inverse framerate 9999. -/
theorem c5_unsupported_framerate_rejected_witness :
    check_requested_framerate 9999 = false ∧
    (part001_session 3 9999 [5, 5] part001_initEngine).started = false ∧
    (part001_session 3 9999 [5, 5] part001_initEngine).engine = part001_initEngine :=
  ⟨(c5_unsupported_framerate_rejected 9999 (by decide)).1,
   ((c5_unsupported_framerate_rejected 9999 (by decide)).2 3 [5, 5] part001_initEngine).1,
   ((c5_unsupported_framerate_rejected 9999 (by decide)).2 3 [5, 5] part001_initEngine).2.1⟩

end Multicam
